import Mathlib

/-
Verification development for the DailySketches ribbon sketches.

Embedded sources:
* src/unnamed/part_000            - p5.js ribbon sketch, greedy random-walk chain generator
                                    (Variant A), arc extractor, layered renderer.
* src/unnamed/part_001 (sketch 1) - same generator and extractor plus a travelling pulse;
                                    the generator and buildArcList are textually identical
                                    to part_000, so they are embedded once.
* src/unnamed/part_001 (sketch 2) - perspective sketch: DFS/backtracking chain generator
                                    (Variant B), viewport fitter, void filler, multi-pulse
                                    renderer.
* src/sketches/capture.js         - PNG-frame recorder.

Conventions of the embedding:
* JavaScript numbers are modelled as real numbers.
* p5's random(a, b) is modelled as rndIn v a b = a + v * (b - a), where v is the next
  value of an explicit stream u : Nat -> Real of unit draws (v in [0,1) for an actual
  run, stated as the hypothesis validU u); an index k threads the position in the
  stream, advanced by one for every random(...) call in source order.
* JS booleans obtained from real-number comparisons are modelled as propositions,
  decidable classically; branches on them use the classical decidability instance.
-/

noncomputable section

namespace Ribbon

open Classical

/-! ## Data model

A circle object `{x, y, radius, edge?}`; `edge` is only present on the seed circle
(JS `undefined` elsewhere), modelled as an `Option`.  `floor(random(4))` is an
integer, carried as `Int`. -/

structure Circle where
  x : ℝ
  y : ℝ
  radius : ℝ
  edge : Option ℤ

/-- Placeholder used to totalise JS array accesses (`circles[...]`) that the
generators only perform on provably nonempty lists. -/
def cDefault : Circle := ⟨0, 0, 0, none⟩

/-! ## Configuration constants (same names and values as the sources) -/

def CANVAS_W : ℝ := 1080
def CANVAS_H : ℝ := 1080
def MIN_R : ℝ := 50
def MAX_R : ℝ := 200
def LAYERS : ℕ := 220
def TICK : ℕ := 1
def GAP : ℕ := 6
def VIEWPORT : ℝ := 1080
def VIEW_PAD : ℝ := 20

/-- part_000 / part_001 sketch 1: `const MAX_ATTEMPTS = 8000`. -/
def MAX_ATTEMPTS : ℕ := 8000
/-- part_000 / part_001 sketch 1: `const MAX_CIRCLES = 150` (suffix `_A`
distinguishes it from sketch 2's constant of the same source name). -/
def MAX_CIRCLES_A : ℕ := 150
/-- part_001 sketch 2: `const MAX_CIRCLES = 300`. -/
def MAX_CIRCLES_B : ℕ := 300
/-- part_001 sketch 2: `const MAX_TOTAL_TRIES = 40000`. -/
def MAX_TOTAL_TRIES : ℕ := 40000
/-- part_001 sketch 2: `const TARGET_OUTSIDE = 5`. -/
def TARGET_OUTSIDE : ℕ := 5

def PI : ℝ := Real.pi
def HALF_PI : ℝ := Real.pi / 2
def TWO_PI : ℝ := 2 * Real.pi

/-! ## Randomness -/

/-- p5's `random(a, b)`: a uniform draw in `[a, b)`, modelled from the unit draw `v`. -/
def rndIn (v a b : ℝ) : ℝ := a + v * (b - a)

/-- A stream of unit draws as produced by p5's RNG. -/
def validU (u : ℕ → ℝ) : Prop := ∀ n, 0 ≤ u n ∧ u n < 1

/-! ## Geometry helpers (pure functions on circles) -/

/-- p5's `dist(a.x, a.y, b.x, b.y)`: Euclidean distance between the two centers. -/
def p5dist (a b : Circle) : ℝ := Real.sqrt ((a.x - b.x) ^ 2 + (a.y - b.y) ^ 2)

/-- part_000 lines 155-157 (identical in part_001 sketch 1):
`circles.some(c => dist(c.x, c.y, nc.x, nc.y) < c.radius + nc.radius)`. -/
def overlapsAnyA (circles : List Circle) (nc : Circle) : Prop :=
  ∃ c ∈ circles, p5dist c nc < c.radius + nc.radius

/-- part_001 lines 316-320 (sketch 2):
`circles.some(c => dist(c.x, c.y, nc.x, nc.y) < c.radius + nc.radius - 0.1)`. -/
def overlapsAnyB (circles : List Circle) (nc : Circle) : Prop :=
  ∃ c ∈ circles, p5dist c nc < c.radius + nc.radius - 0.1

/-- part_000 lines 158-161: the circle's bounding box crosses some canvas edge. -/
def isOutside (c : Circle) : Prop :=
  c.x - c.radius < 0 ∨ CANVAS_W < c.x + c.radius ∨
  c.y - c.radius < 0 ∨ CANVAS_H < c.y + c.radius

/-- part_001 sketch 2, `fullyOutside`: the whole circle lies beyond some canvas edge. -/
def fullyOutside (c : Circle) : Prop :=
  c.x + c.radius < 0 ∨ CANVAS_W < c.x - c.radius ∨
  c.y + c.radius < 0 ∨ CANVAS_H < c.y - c.radius

/-! ## Variant A: greedy constrained random walk (part_000 lines 103-161)

The seed consumes `u 0` (edge), `u 1` (r0) and, for the coordinate that is not
pinned to the chosen edge, `u 2`; in every `edge ∈ {0,1,2,3}` case exactly one of
`x0`, `y0` draws, so the loop starts at stream index given by `seedK`. -/

/-- Stream index of the coordinate draw for `y0`: `x0` draws first iff `edge` is 0 or 2
(the ternaries for `x0` only call `random` when `edge` is neither 1 nor 3). -/
def seedKy (edge : ℤ) : ℕ := if edge = 1 ∨ edge = 3 then 2 else 3

/-- Stream index right after the seed construction. -/
def seedK (edge : ℤ) : ℕ := if edge = 0 ∨ edge = 2 then seedKy edge else seedKy edge + 1

/-- part_000 lines 106-115: seed circle tangent to a random canvas edge. -/
def seedA (u : ℕ → ℝ) : Circle :=
  let edge : ℤ := Int.floor (4 * u 0)
  let r0 := rndIn (u 1) MIN_R MAX_R
  let x0 := if edge = 1 then CANVAS_W - r0
            else if edge = 3 then r0
            else rndIn (u 2) r0 (CANVAS_W - r0)
  let y0 := if edge = 0 then r0
            else if edge = 2 then CANVAS_H - r0
            else rndIn (u (seedKy edge)) r0 (CANVAS_H - r0)
  ⟨x0, y0, r0, some edge⟩

/-- part_000 lines 139-152, `safeAngle`: restrict the direction range when the tail
circle is near or beyond a canvas edge, then draw uniformly in the range. -/
def safeAngle (u : ℕ → ℝ) (k : ℕ) (c : Circle) : ℝ :=
  let p : ℝ × ℝ :=
    if c.x - c.radius ≤ 0 then (-HALF_PI, HALF_PI)
    else if CANVAS_W ≤ c.x + c.radius then (HALF_PI, PI + HALF_PI)
    else (0, TWO_PI)
  let q : ℝ × ℝ :=
    if c.y - c.radius ≤ 0 then (max p.1 0, min p.2 PI)
    else if CANVAS_H ≤ c.y + c.radius then (max p.1 PI, min p.2 TWO_PI)
    else p
  rndIn (u k) q.1 q.2

/-- part_000 lines 117-137, the growth loop.  `fuel` counts the remaining
iterations the `++attempts < MAX_ATTEMPTS` guard still allows (the guard
increments on every test, so the body runs at most `MAX_ATTEMPTS - 1` times);
each iteration consumes two stream draws (`newR` and the angle). -/
def loopA (u : ℕ → ℝ) : ℕ → ℕ → List Circle → List Circle
  | 0, _, circles => circles
  | fuel + 1, k, circles =>
    if MAX_CIRCLES_A ≤ circles.length then circles
    else
      let last := circles.getLastD cDefault
      let newR := rndIn (u k) MIN_R MAX_R
      let ang := if circles.length < 30 then safeAngle u (k + 1) last
                 else rndIn (u (k + 1)) 0 TWO_PI
      let d := last.radius + newR
      let next : Circle := ⟨last.x + Real.cos ang * d, last.y + Real.sin ang * d, newR, none⟩
      if overlapsAnyA circles next then loopA u fuel (k + 2) circles
      else if 30 ≤ (circles ++ [next]).length ∧ isOutside next then circles ++ [next]
      else loopA u fuel (k + 2) (circles ++ [next])

/-- part_000 `generateTouchingCircles`: seed, then grow. -/
def genA (u : ℕ → ℝ) : List Circle :=
  loopA u (MAX_ATTEMPTS - 1) (seedK (Int.floor (4 * u 0))) [seedA u]

/-! ## Variant B: depth-first search with backtracking (part_001 sketch 2, lines 322-392)

The JS `dfs` mutates four globals.  `circles` and `outsideCount` are restored on
every backtrack (`circles.pop()` and the matching decrement), so across a call of
`dfs` they are unchanged; only `totalTries`, `bestCircles`, `bestOutsideCt` (and the
RNG position) persist.  The embedding therefore passes `circles`/`outsideCount`
downward as plain arguments (the pop/decrement is the caller resuming with its own
values) and returns the persistent part as a `Pst` record. -/

structure Pst where
  totalTries : ℕ
  best : List Circle
  bestOutsideCt : ℕ
  /-- position in the random stream -/
  k : ℕ

/-- `const ANGLE_STEP = TWO_PI / 64`. -/
def ANGLE_STEP : ℝ := TWO_PI / 64

/-- The fan `for (let ang = 0; ang < TWO_PI; ang += ANGLE_STEP)`: over the reals the
iterates are exactly `k * ANGLE_STEP` for `k = 0 .. 63`. -/
def anglesB : List ℝ := (List.range 64).map fun j => j * ANGLE_STEP

/-- The body of `dfs`'s fan-out loop (part_001 lines 368-384).  `child` is the
recursive call; `last` and `dist0` are computed before the loop (lines 364-365) and
are the same at every iteration because `circles` is restored after each backtrack. -/
def angleLoop (u : ℕ → ℝ) (child : List Circle → ℕ → Pst → Pst)
    (circles : List Circle) (outsideCount : ℕ) : List ℝ → Pst → Pst
  | [], pst => pst
  | ang :: rest, pst =>
    let last := circles.getLastD cDefault
    let dist0 := last.radius
    let newR := rndIn (u pst.k) MIN_R MAX_R
    let next : Circle := ⟨last.x + Real.cos ang * (dist0 + newR),
                          last.y + Real.sin ang * (dist0 + newR), newR, none⟩
    let pst1 : Pst := { pst with k := pst.k + 1 }
    if overlapsAnyB circles next then angleLoop u child circles outsideCount rest pst1
    else
      let oc := if fullyOutside next then outsideCount + 1 else outsideCount
      let pst2 := child (circles ++ [next]) oc pst1
      angleLoop u child circles outsideCount rest pst2

/-- part_001 lines 352-385, `dfs`.  `fuel` is a structural bound on the recursion
depth; every call in the program satisfies `fuel + circles.length = MAX_CIRCLES_B + 1`
(the root gets `MAX_CIRCLES_B` with a 1-element chain and each level consumes one
fuel while pushing one circle), so the `circles.length >= MAX_CIRCLES` check always
fires strictly before the fuel could run out: the fuel-zero branch is unreachable
and the function implements the source recursion. -/
def dfsGo (u : ℕ → ℝ) : ℕ → List Circle → ℕ → Pst → Pst
  | fuel, circles, outsideCount, pst =>
    let t := pst.totalTries + 1
    let pst1 : Pst := { pst with totalTries := t }
    if MAX_TOTAL_TRIES < t then pst1
    else
      let pst2 := if TARGET_OUTSIDE ≤ outsideCount ∧ pst1.best.length < circles.length
                  then { pst1 with best := circles, bestOutsideCt := outsideCount }
                  else pst1
      if MAX_CIRCLES_B ≤ circles.length then pst2
      else
        match fuel with
        | 0 => pst2
        | fuel' + 1 => angleLoop u (dfsGo u fuel') circles outsideCount anglesB pst2

/-- part_001 lines 325-336: seed circle half-inside a random canvas edge. -/
def seedB (u : ℕ → ℝ) : Circle :=
  let edge : ℤ := Int.floor (4 * u 0)
  let r0 := rndIn (u 1) MIN_R MAX_R
  let x0 := if edge = 1 then CANVAS_W - r0 * 0.5
            else if edge = 3 then r0 * 0.5
            else rndIn (u 2) (r0 * 0.5) (CANVAS_W - r0 * 0.5)
  let y0 := if edge = 0 then r0 * 0.5
            else if edge = 2 then CANVAS_H - r0 * 0.5
            else rndIn (u (seedKy edge)) (r0 * 0.5) (CANVAS_H - r0 * 0.5)
  ⟨x0, y0, r0, some edge⟩

/-- Initial `outsideCount`: `fullyOutside(circles[0]) ? 1 : 0` (line 345). -/
def outside0 (u : ℕ → ℝ) : ℕ := if fullyOutside (seedB u) then 1 else 0

/-- The persistent state right before `dfs()` is launched (lines 344-349):
`totalTries = 0`, `bestCircles` a copy of the one-element chain,
`bestOutsideCt = outsideCount`. -/
def pst0 (u : ℕ → ℝ) : Pst :=
  { totalTries := 0, best := [seedB u], bestOutsideCt := outside0 u
    k := seedK (Int.floor (4 * u 0)) }

/-- The persistent state after the exhaustive search returns. -/
def dfsPost (u : ℕ → ℝ) : Pst := dfsGo u MAX_CIRCLES_B [seedB u] (outside0 u) (pst0 u)

/-- part_001 `generateTouchingCircles` (sketch 2): after `dfs()` returns, the chain
is overwritten with the retained best chain (lines 389-391). -/
def genB (u : ℕ → ℝ) : List Circle := (dfsPost u).best

/-! ## Viewport fitter (part_001 sketch 2, lines 395-416)

The JS folds `min`/`max` starting from `±Infinity` over every circle's
radius-extended extent; on the (always nonempty) chains the program feeds it this
equals folding from the first element, which is how `listMin`/`listMax` are
modelled (reals have no infinities). -/

def listMin : List ℝ → ℝ
  | [] => 0
  | v :: l => l.foldl min v

def listMax : List ℝ → ℝ
  | [] => 0
  | v :: l => l.foldl max v

def bboxMinX (circles : List Circle) : ℝ := listMin (circles.map fun c => c.x - c.radius)
def bboxMaxX (circles : List Circle) : ℝ := listMax (circles.map fun c => c.x + c.radius)
def bboxMinY (circles : List Circle) : ℝ := listMin (circles.map fun c => c.y - c.radius)
def bboxMaxY (circles : List Circle) : ℝ := listMax (circles.map fun c => c.y + c.radius)

/-- `const limit = VIEWPORT - VIEW_PAD * 2`. -/
def fitLimit : ℝ := VIEWPORT - VIEW_PAD * 2

/-- `const scale = min(1, min(limit / bw, limit / bh))`. -/
def fitScale (circles : List Circle) : ℝ :=
  min 1 (min (fitLimit / (bboxMaxX circles - bboxMinX circles))
             (fitLimit / (bboxMaxY circles - bboxMinY circles)))

/-- part_001 `fitRibbonToViewport`: translate the bbox center to the canvas center
and scale positions and radii uniformly by `fitScale`. -/
def fitRibbonToViewport (circles : List Circle) : List Circle :=
  let scale := fitScale circles
  let cx := (bboxMinX circles + bboxMaxX circles) * 0.5
  let cy := (bboxMinY circles + bboxMaxY circles) * 0.5
  circles.map fun c =>
    ⟨(c.x - cx) * scale + CANVAS_W * 0.5, (c.y - cy) * scale + CANVAS_H * 0.5,
     c.radius * scale, c.edge⟩

/-! ## Void filler (part_001 sketch 2, lines 418-429) -/

/-- Modelled from the spec: the helper `fullyInsideViewport` is called by
`fillVoids` ("helper that checks 1080 box") but its definition is not among the
provided source files; per the spec a candidate is acceptable only if it "lies
fully within the viewport bounds", i.e. its radius-extended box is inside the
1080-square viewport. -/
def fullyInsideViewport (c : Circle) : Prop :=
  0 ≤ c.x - c.radius ∧ c.x + c.radius ≤ VIEWPORT ∧
  0 ≤ c.y - c.radius ∧ c.y + c.radius ≤ VIEWPORT

/-- `fillVoids(attempts = 2000)`: `while (attempts--)` runs the body `attempts`
times; each attempt consumes three draws (`r`, `nx`, `ny`) and appends the
candidate iff it overlaps nothing and is fully inside the viewport.  Arguments:
stream, stream position, remaining attempts, the current circle list. -/
def fillVoids (u : ℕ → ℝ) : ℕ → ℕ → List Circle → List Circle
  | _, 0, circles => circles
  | k, attempts + 1, circles =>
    let r := rndIn (u k) 12 30
    let nx := rndIn (u (k + 1)) 0 CANVAS_W
    let ny := rndIn (u (k + 2)) 0 CANVAS_H
    let c : Circle := ⟨nx, ny, r, none⟩
    if overlapsAnyB circles c then fillVoids u (k + 3) attempts circles
    else if ¬ fullyInsideViewport c then fillVoids u (k + 3) attempts circles
    else fillVoids u (k + 3) attempts (circles ++ [c])

/-- part_001 sketch 2 `setup()` pipeline for the circle list: generate, fit, fill
voids (the filler keeps drawing from the RNG where the search left off). -/
def setupCirclesB (u : ℕ → ℝ) : List Circle :=
  fillVoids u (dfsPost u).k 2000 (fitRibbonToViewport (genB u))

/-! ## Arc extractor (part_000 lines 68-85 = part_001 lines 277-292) -/

structure ArcSeg where
  cx : ℝ
  cy : ℝ
  r : ℝ
  a1 : ℝ
  a2 : ℝ
  cw : Bool

/-- p5's `atan2(y, x)`, the argument of the point `(x, y)` in `(-pi, pi]`. -/
def atan2 (y x : ℝ) : ℝ := Complex.arg ⟨x, y⟩

/-- The edge-angle table `[ -HALF_PI, 0, HALF_PI, PI ]`. -/
def edgeAngles : List ℝ := [-HALF_PI, 0, HALF_PI, PI]

/-- The lookup `[ -HALF_PI, 0, HALF_PI, PI ][c0.edge]`; `none` models the JS
`undefined` produced by a missing `edge` field or an out-of-range index. -/
def edgeAngleOf (c : Circle) : Option ℝ :=
  c.edge.bind fun e => if 0 ≤ e then edgeAngles.get? e.toNat else none

/-- The interior arc for circle `i` (`1 <= i <= length-2`), built from its two
neighbours; orientation alternates with the parity of `i`. -/
def arcAt (circles : List Circle) (i : ℕ) : ArcSeg :=
  let prev := circles.getD (i - 1) cDefault
  let cur := circles.getD i cDefault
  let nxt := circles.getD (i + 1) cDefault
  ⟨cur.x, cur.y, cur.radius,
   atan2 (cur.y - prev.y) (cur.x - prev.x) + PI,
   atan2 (nxt.y - cur.y) (nxt.x - cur.x),
   decide (i % 2 = 0)⟩

/-- `buildArcList`: empty for chains shorter than 2; otherwise the edge-anchored
first arc followed by one interior arc per circle `i = 1 .. length-2`.  The first
arc's `a1` reads the edge-angle table at `circles[0].edge` (the JS expression
yields `undefined`/NaN when that lookup fails; the embedding totalises it with
`getD 0`, and the generated chains are proved to make the lookup succeed). -/
def buildArcList (circles : List Circle) : List ArcSeg :=
  if circles.length < 2 then []
  else
    let c0 := circles.getD 0 cDefault
    let c1 := circles.getD 1 cDefault
    let first : ArcSeg := ⟨c0.x, c0.y, c0.radius, (edgeAngleOf c0).getD 0,
                           atan2 (c1.y - c0.y) (c1.x - c0.x), true⟩
    first :: (List.range (circles.length - 2)).map fun j => arcAt circles (j + 1)

/-! ## Layered renderer and pulse scheduling (part_001 sketch 2, lines 233-274) -/

/-- `const leader = floor(frameCount / TICK) % LAYERS`. -/
def leaderAt (frameCount : ℕ) : ℕ := frameCount / TICK % LAYERS

/-- `const pulses = floor(leader / GAP) + 1`. -/
def pulsesAt (frameCount : ℕ) : ℕ := leaderAt frameCount / GAP + 1

/-- The turquoise condition (lines 258-259): `diff >= 0 && diff % GAP === 0 &&
diff / GAP < pulses`, with JS exact (rational) division in the last test. -/
def turquoiseAt (frameCount layer : ℕ) : Prop :=
  let diff : ℤ := (leaderAt frameCount : ℤ) - layer
  0 ≤ diff ∧ diff % (GAP : ℤ) = 0 ∧ (diff : ℚ) / (GAP : ℚ) < (pulsesAt frameCount : ℚ)

/-- One recorded stroke pass: layer index, whether it is the thin outline pass
(`false` = opaque body pass), and the segment drawn. -/
structure StrokeOp where
  layer : ℕ
  outline : Bool
  seg : ArcSeg

/-- The per-frame drawing work of `draw()`: for each layer (painted far to near)
every arc is stroked once for the body pass and once for the outline/highlight
pass.  An empty arc list yields no strokes. -/
def drawOps (arcs : List ArcSeg) : List StrokeOp :=
  ((List.range LAYERS).reverse).flatMap fun layer =>
    (arcs.map fun seg => ⟨layer, false, seg⟩) ++ (arcs.map fun seg => ⟨layer, true, seg⟩)

/-! ## Frame capture (src/sketches/capture.js with the draw hook of part_001 line 75)

capture.js sets a `window.recPending` property (line 11) and also declares a
top-level `let recPending` (line 18).  In a classic browser script a top-level
`let` creates a global *lexical* binding that is distinct from the `window`
property and shadows it for bare references, so `startCapture`/`saveGifFrame`/
`finishCapture` read and write the `let` binding while the sketches' draw loop
tests the `window.recPending` property.  Both variables are therefore modelled
as separate fields. -/

structure CapState where
  /-- the `window.recPending` property (line 11) -/
  windowRecPending : Bool
  /-- the `let recPending` lexical binding (line 18) -/
  recPending : Bool
  grabCount : ℕ
  /-- frames filed into the currently open zip folder -/
  zipFrames : ℕ
  /-- completed zip downloads handed to the browser -/
  archives : ℕ

def REC_SECONDS : ℕ := 10
def REC_FPS : ℕ := 60
def REC_FRAMES : ℕ := REC_SECONDS * REC_FPS

/-- State when the scripts have loaded: both flags false, no frames, no archive. -/
def capInit : CapState :=
  { windowRecPending := false, recPending := false, grabCount := 0
    zipFrames := 0, archives := 0 }

/-- `finishCapture()`: close the recording and hand one zip to the browser. -/
def finishCapture (st : CapState) : CapState :=
  if st.recPending = false then st
  else { st with recPending := false, archives := st.archives + 1 }

/-- `saveGifFrame()`: file one frame; once `REC_FRAMES` frames are in, finish. -/
def saveGifFrame (st : CapState) : CapState :=
  if st.recPending = false then st
  else
    let st1 := { st with zipFrames := st.zipFrames + 1, grabCount := st.grabCount + 1 }
    if REC_FRAMES ≤ st1.grabCount then finishCapture st1 else st1

/-- `startCapture()`: arm the recorder (sets the lexical `recPending`, resets the
counter, opens a fresh zip folder; `window.recPending` is not written). -/
def startCapture (st : CapState) : CapState :=
  if st.recPending then st
  else { st with recPending := true, grabCount := 0, zipFrames := 0 }

/-- The capture-relevant effect of one `draw()` frame (part_001 line 75):
`if (window.recPending) saveGifFrame();`. -/
def drawTick (st : CapState) : CapState :=
  if st.windowRecPending then saveGifFrame st else st

/-- Iterate `n` draw frames. -/
def drawTicks : ℕ → CapState → CapState
  | 0, st => st
  | n + 1, st => drawTicks n (drawTick st)

/-- The behaviour capture.js documents for its own API ("Call every draw() while
recPending is true"): the draw loop consults the same `recPending` the recorder
sets.  Used to exhibit the divergence between the intended and the actual gate. -/
def intendedTick (st : CapState) : CapState :=
  if st.recPending then saveGifFrame st else st

def intendedTicks : ℕ → CapState → CapState
  | 0, st => st
  | n + 1, st => intendedTicks n (intendedTick st)

/-! ## Specification predicates -/

/-- Adjacent circles touch exactly: the distance of consecutive centers equals the
sum of their radii. -/
def tangentAdj (a b : Circle) : Prop := p5dist a b = a.radius + b.radius

/-- Two circles are at least `eps` short of overlapping. -/
def farApart (eps : ℝ) (a b : Circle) : Prop := a.radius + b.radius - eps ≤ p5dist a b

/-- The chain invariant maintained by both generators: consecutive circles are
exactly tangent, every pair is within `eps` of non-overlapping, and radii are
positive. -/
def ChainOK (eps : ℝ) (circles : List Circle) : Prop :=
  circles.Chain' tangentAdj ∧ circles.Pairwise (farApart eps) ∧ ∀ c ∈ circles, 0 < c.radius

/-- Claim C1, first half, in index form: every circle `i > 0` is tangent to its
predecessor within `eps`. -/
def tangentWithin (eps : ℝ) (circles : List Circle) : Prop :=
  ∀ (i : ℕ) (h : i + 1 < circles.length),
    |p5dist (circles.get ⟨i, by omega⟩) (circles.get ⟨i + 1, h⟩) -
      ((circles.get ⟨i, by omega⟩).radius + (circles.get ⟨i + 1, h⟩).radius)| ≤ eps

/-- Claim C1, second half, in index form: circles whose indices differ by more
than one are at least `eps` short of overlapping. -/
def noSpurious (eps : ℝ) (circles : List Circle) : Prop :=
  ∀ (i j : ℕ) (h1 : i + 1 < j) (h2 : j < circles.length),
    (circles.get ⟨i, by omega⟩).radius + (circles.get ⟨j, h2⟩).radius - eps ≤
      p5dist (circles.get ⟨i, by omega⟩) (circles.get ⟨j, h2⟩)

/-- Number of chain members that are fully outside the canvas (the quantity
`outsideCount` tracks). -/
def countOutside : List Circle → ℕ
  | [] => 0
  | c :: l => (if fullyOutside c then 1 else 0) + countOutside l

/-- The fillers `fs` were acceptable, in order, against the growing list starting
from `base`: each one overlapped nothing present at its acceptance and sat fully
inside the viewport. -/
def FillerOk : List Circle → List Circle → Prop
  | _, [] => True
  | base, f :: fs =>
    ¬ overlapsAnyB base f ∧ fullyInsideViewport f ∧ FillerOk (base ++ [f]) fs

/-- The head of the list is a seed circle: its `edge` field holds an integer in
`0..3`, so the edge-angle lookup of `buildArcList` succeeds on it. -/
def seedOKAt (circles : List Circle) : Prop :=
  ∃ c e, circles.head? = some c ∧ c.edge = some e ∧ 0 ≤ e ∧ e < 4 ∧
    (edgeAngleOf c).isSome = true

/-- The invariant of the search's persistent state, relative to the seed `s`: the
retained best chain is a nonempty seed-headed chain satisfying the tangency/
no-overlap invariant, `bestOutsideCt` counts its fully-outside members, and the
best chain is either still the initial one-element chain or meets the
`TARGET_OUTSIDE` goal. -/
def GoodPst (s : Circle) (pst : Pst) : Prop :=
  pst.best ≠ [] ∧ pst.best.head? = some s ∧ ChainOK 0.1 pst.best ∧
  pst.bestOutsideCt = countOutside pst.best ∧
  (pst.best = [s] ∨ TARGET_OUTSIDE ≤ pst.bestOutsideCt)

/-- A concrete unit-draw stream (constantly zero), used to instantiate the
universally quantified theorems. -/
def u0 : ℕ → ℝ := fun _ => 0

/-! Concrete circles used to instantiate theorems with hypotheses: a two-circle
tangent chain seeded on the top edge, a small far-away filler, and a standalone
circle. -/

def cW0 : Circle := ⟨100, 100, 50, some 0⟩
def cW1 : Circle := ⟨200, 100, 50, none⟩
def fW : Circle := ⟨540, 540, 20, none⟩
def cV : Circle := ⟨540, 540, 100, some 2⟩

/-! ## Basic lemmas -/

theorem rndIn_lower (v a b : ℝ) (hv : 0 ≤ v) (hab : a ≤ b) : a ≤ rndIn v a b := by
  unfold rndIn; nlinarith

theorem radius_draw_pos (u : ℕ → ℝ) (hu : validU u) (k : ℕ) :
    0 < rndIn (u k) MIN_R MAX_R := by
  have h := rndIn_lower (u k) MIN_R MAX_R (hu k).1 (by norm_num [MIN_R, MAX_R])
  have h2 : (0 : ℝ) < MIN_R := by norm_num [MIN_R]
  linarith

/-- The generators place the next circle at distance exactly `d` from the tail,
whatever the chosen direction: `cos^2 + sin^2 = 1`. -/
theorem placed_dist (c : Circle) (ang d r' : ℝ) (e : Option ℤ) (hd : 0 ≤ d) :
    p5dist c ⟨c.x + Real.cos ang * d, c.y + Real.sin ang * d, r', e⟩ = d := by
  unfold p5dist
  dsimp only
  have h1 : (c.x - (c.x + Real.cos ang * d)) ^ 2 + (c.y - (c.y + Real.sin ang * d)) ^ 2
      = d ^ 2 := by
    linear_combination (d ^ 2) * Real.sin_sq_add_cos_sq ang
  rw [h1, Real.sqrt_sq hd]

theorem not_overlapsAnyA_far (circles : List Circle) (nc : Circle)
    (h : ¬ overlapsAnyA circles nc) : ∀ c ∈ circles, farApart 0 c nc := by
  intro c hc
  have hn : ¬ (p5dist c nc < c.radius + nc.radius) := fun hlt => h ⟨c, hc, hlt⟩
  unfold farApart
  linarith [not_lt.1 hn]

theorem not_overlapsAnyB_far (circles : List Circle) (nc : Circle)
    (h : ¬ overlapsAnyB circles nc) : ∀ c ∈ circles, farApart 0.1 c nc := by
  intro c hc
  have hn : ¬ (p5dist c nc < c.radius + nc.radius - 0.1) := fun hlt => h ⟨c, hc, hlt⟩
  unfold farApart
  linarith [not_lt.1 hn]

theorem getLastD_mem (circles : List Circle) (hne : circles ≠ []) :
    circles.getLastD cDefault ∈ circles := by
  rw [List.getLastD_eq_getLast? cDefault circles, List.getLast?_eq_getLast circles hne]
  exact List.getLast_mem hne

theorem chainOK_singleton (eps : ℝ) (c : Circle) (hr : 0 < c.radius) : ChainOK eps [c] := by
  refine ⟨by simp, by simp, ?_⟩
  intro d hd
  simp at hd
  subst hd
  exact hr

theorem chainOK_push (eps : ℝ) (circles : List Circle) (next : Circle)
    (hne : circles ≠ []) (hok : ChainOK eps circles)
    (hfar : ∀ c ∈ circles, farApart eps c next)
    (htan : tangentAdj (circles.getLastD cDefault) next)
    (hr : 0 < next.radius) : ChainOK eps (circles ++ [next]) := by
  obtain ⟨hchain, hpair, hrad⟩ := hok
  have hlast : circles.getLastD cDefault = circles.getLast hne := by
    rw [List.getLastD_eq_getLast? cDefault circles, List.getLast?_eq_getLast circles hne]
    rfl
  refine ⟨?_, ?_, ?_⟩
  · rw [List.chain'_append]
    refine ⟨hchain, by simp, ?_⟩
    intro x hx y hy
    rw [List.getLast?_eq_getLast circles hne] at hx
    simp at hx hy
    subst hx
    subst hy
    exact hlast ▸ htan
  · rw [List.pairwise_append]
    refine ⟨hpair, by simp, ?_⟩
    intro a ha b hb
    simp at hb
    subst hb
    exact hfar a ha
  · intro c hc
    rcases List.mem_append.1 hc with h | h
    · exact hrad c h
    · simp at h
      subst h
      exact hr

theorem append_singleton_ne_nil (l : List Circle) (c : Circle) : l ++ [c] ≠ [] := by
  simp

/-- A candidate placed at tangency distance from the tail and accepted by the
overlap test extends a valid chain to a valid chain. -/
theorem chainOK_accept (eps : ℝ) (circles : List Circle) (hne : circles ≠ [])
    (hok : ChainOK eps circles) (ang newR : ℝ) (hr : 0 < newR) (next : Circle)
    (hnext : next = ⟨(circles.getLastD cDefault).x +
        Real.cos ang * ((circles.getLastD cDefault).radius + newR),
      (circles.getLastD cDefault).y +
        Real.sin ang * ((circles.getLastD cDefault).radius + newR), newR, none⟩)
    (hfar : ∀ c ∈ circles, farApart eps c next) :
    ChainOK eps (circles ++ [next]) := by
  have hd : 0 ≤ (circles.getLastD cDefault).radius + newR := by
    have := hok.2.2 _ (getLastD_mem circles hne)
    linarith
  refine chainOK_push eps circles next hne hok hfar ?_ ?_
  · unfold tangentAdj
    rw [hnext, placed_dist (circles.getLastD cDefault) ang _ newR none hd]
  · rw [hnext]
    exact hr

/-! ## Variant A preserves the chain invariant -/

theorem loopA_good (u : ℕ → ℝ) (hu : validU u) :
    ∀ (fuel k : ℕ) (circles : List Circle), circles ≠ [] → ChainOK 0 circles →
      (loopA u fuel k circles ≠ [] ∧ ChainOK 0 (loopA u fuel k circles) ∧
        (loopA u fuel k circles).head? = circles.head?) := by
  intro fuel
  induction fuel with
  | zero =>
    intro k circles hne hok
    exact ⟨hne, hok, rfl⟩
  | succ fuel ih =>
    intro k circles hne hok
    simp only [loopA]
    split_ifs with h1 h2 h3 h4 h5 h6
    · exact ⟨hne, hok, by simp⟩
    · exact ih (k + 2) circles hne hok
    · refine ⟨by simp, ?_, List.head?_append_of_ne_nil circles hne⟩
      exact chainOK_accept 0 circles hne hok _ _ (radius_draw_pos u hu k) _ rfl
        (not_overlapsAnyA_far circles _ h3)
    · have hok' := chainOK_accept 0 circles hne hok _ _ (radius_draw_pos u hu k) _ rfl
        (not_overlapsAnyA_far circles _ h3)
      obtain ⟨hv1, hv2, hv3⟩ := ih (k + 2) _ (append_singleton_ne_nil circles _) hok'
      exact ⟨hv1, hv2, hv3.trans (List.head?_append_of_ne_nil circles hne)⟩
    · exact ih (k + 2) circles hne hok
    · refine ⟨by simp, ?_, List.head?_append_of_ne_nil circles hne⟩
      exact chainOK_accept 0 circles hne hok _ _ (radius_draw_pos u hu k) _ rfl
        (not_overlapsAnyA_far circles _ h5)
    · have hok' := chainOK_accept 0 circles hne hok _ _ (radius_draw_pos u hu k) _ rfl
        (not_overlapsAnyA_far circles _ h5)
      obtain ⟨hv1, hv2, hv3⟩ := ih (k + 2) _ (append_singleton_ne_nil circles _) hok'
      exact ⟨hv1, hv2, hv3.trans (List.head?_append_of_ne_nil circles hne)⟩

/-! ## Variant B: the search preserves the chain invariant and the best-chain policy -/

theorem countOutside_append (l : List Circle) (c : Circle) :
    countOutside (l ++ [c]) = countOutside l + (if fullyOutside c then 1 else 0) := by
  induction l with
  | nil => simp [countOutside]
  | cons d l ih => simp [countOutside, ih, Nat.add_assoc]

theorem angleLoop_good (u : ℕ → ℝ) (hu : validU u) (s : Circle)
    (child : List Circle → ℕ → Pst → Pst)
    (hchild : ∀ (cs : List Circle) (oc : ℕ) (pst : Pst), cs ≠ [] → cs.head? = some s →
      ChainOK 0.1 cs → oc = countOutside cs → GoodPst s pst → GoodPst s (child cs oc pst)) :
    ∀ (angs : List ℝ) (cs : List Circle) (oc : ℕ) (pst : Pst), cs ≠ [] →
      cs.head? = some s → ChainOK 0.1 cs → oc = countOutside cs → GoodPst s pst →
      GoodPst s (angleLoop u child cs oc angs pst) := by
  intro angs
  induction angs with
  | nil =>
    intro cs oc pst _ _ _ _ hp
    exact hp
  | cons ang rest ih =>
    intro cs oc pst hne hhead hok hoc hp
    simp only [angleLoop]
    split_ifs with h1 h2
    · exact ih cs oc _ hne hhead hok hoc hp
    · -- accepted, candidate fully outside: recurse into the child with oc + 1
      refine ih cs oc _ hne hhead hok hoc
        (hchild _ _ _ (append_singleton_ne_nil cs _)
          ((List.head?_append_of_ne_nil cs hne).trans hhead)
          (chainOK_accept 0.1 cs hne hok _ _ (radius_draw_pos u hu pst.k) _ rfl
            (not_overlapsAnyB_far cs _ h1))
          ?_ hp)
      rw [countOutside_append, if_pos h2, hoc]
    · -- accepted, candidate not fully outside: recurse into the child with oc
      refine ih cs oc _ hne hhead hok hoc
        (hchild _ _ _ (append_singleton_ne_nil cs _)
          ((List.head?_append_of_ne_nil cs hne).trans hhead)
          (chainOK_accept 0.1 cs hne hok _ _ (radius_draw_pos u hu pst.k) _ rfl
            (not_overlapsAnyB_far cs _ h1))
          ?_ hp)
      rw [countOutside_append, if_neg h2, Nat.add_zero, hoc]

theorem dfsGo_good (u : ℕ → ℝ) (hu : validU u) (s : Circle) :
    ∀ (fuel : ℕ) (cs : List Circle) (oc : ℕ) (pst : Pst), cs ≠ [] → cs.head? = some s →
      ChainOK 0.1 cs → oc = countOutside cs → GoodPst s pst →
      GoodPst s (dfsGo u fuel cs oc pst) := by
  intro fuel
  induction fuel with
  | zero =>
    intro cs oc pst hne hhead hok hoc hp
    simp only [dfsGo]
    split_ifs with h1 h2 h3 h4
    · exact hp
    · exact ⟨hne, hhead, hok, hoc, Or.inr h3.1⟩
    · exact hp
    · exact ⟨hne, hhead, hok, hoc, Or.inr h4.1⟩
    · exact hp
  | succ fuel ih =>
    intro cs oc pst hne hhead hok hoc hp
    simp only [dfsGo]
    split_ifs with h1 h2 h3 h4
    · exact hp
    · exact ⟨hne, hhead, hok, hoc, Or.inr h3.1⟩
    · exact hp
    · exact angleLoop_good u hu s _ ih anglesB cs oc _ hne hhead hok hoc
        ⟨hne, hhead, hok, hoc, Or.inr h4.1⟩
    · exact angleLoop_good u hu s _ ih anglesB cs oc _ hne hhead hok hoc hp

/-! ## From the chain invariant to the claimed index-wise properties -/

theorem chainOK_spec (eps eps' : ℝ) (circles : List Circle) (h : ChainOK eps circles)
    (heps : 0 ≤ eps') (hle : eps ≤ eps') :
    tangentWithin eps' circles ∧ noSpurious eps' circles := by
  obtain ⟨hchain, hpair, _⟩ := h
  constructor
  · intro i hi
    have ht := List.chain'_iff_get.1 hchain i (by omega)
    unfold tangentAdj at ht
    rw [ht, sub_self, abs_zero]
    exact heps
  · intro i j h1 h2
    have hf := List.pairwise_iff_get.1 hpair ⟨i, by omega⟩ ⟨j, h2⟩ (by
      exact Fin.mk_lt_mk.2 (by omega))
    unfold farApart at hf
    linarith

theorem seedA_radius_pos (u : ℕ → ℝ) (hu : validU u) : 0 < (seedA u).radius :=
  radius_draw_pos u hu 1

theorem seedB_radius_pos (u : ℕ → ℝ) (hu : validU u) : 0 < (seedB u).radius :=
  radius_draw_pos u hu 1

theorem genA_good (u : ℕ → ℝ) (hu : validU u) :
    genA u ≠ [] ∧ ChainOK 0 (genA u) ∧ (genA u).head? = some (seedA u) := by
  obtain ⟨h1, h2, h3⟩ := loopA_good u hu (MAX_ATTEMPTS - 1) (seedK (Int.floor (4 * u 0)))
    [seedA u] (by simp) (chainOK_singleton 0 _ (seedA_radius_pos u hu))
  exact ⟨h1, h2, h3⟩

theorem genB_goodPst (u : ℕ → ℝ) (hu : validU u) : GoodPst (seedB u) (dfsPost u) := by
  refine dfsGo_good u hu (seedB u) MAX_CIRCLES_B [seedB u] (outside0 u) (pst0 u)
    (by simp) (by simp) (chainOK_singleton 0.1 _ (seedB_radius_pos u hu))
    (by simp [outside0, countOutside]) ?_
  exact ⟨by simp [pst0], by simp [pst0], chainOK_singleton 0.1 _ (seedB_radius_pos u hu),
    by simp [pst0, outside0, countOutside], Or.inl rfl⟩

/-- C1: every chain produced by either generator is, at return, a tangent chain
within epsilon = 0.1 (Variant A's tangency is exact and its overlap test uses no
epsilon, Variant B's overlap test subtracts 0.1): adjacent circles are tangent
within 0.1 and circles at index distance greater than one are at least
`sum of radii - 0.1` apart. -/
theorem spec_c1 (u : ℕ → ℝ) (hu : validU u) :
    (tangentWithin 0.1 (genA u) ∧ noSpurious 0.1 (genA u)) ∧
    (tangentWithin 0.1 (genB u) ∧ noSpurious 0.1 (genB u)) := by
  constructor
  · exact chainOK_spec 0 0.1 _ (genA_good u hu).2.1 (by norm_num) (by norm_num)
  · exact chainOK_spec 0.1 0.1 _ (genB_goodPst u hu).2.2.1 (by norm_num) le_rfl

/-- Witness for C1: the hypotheses hold at the all-zeros stream. -/
theorem spec_c1_witness :
    validU u0 ∧
    ((tangentWithin 0.1 (genA u0) ∧ noSpurious 0.1 (genA u0)) ∧
     (tangentWithin 0.1 (genB u0) ∧ noSpurious 0.1 (genB u0))) :=
  ⟨fun _ => by norm_num [u0], spec_c1 u0 (fun _ => by norm_num [u0])⟩

/-- C4: the backtracking generator is a total function — exhausting the
`MAX_TOTAL_TRIES` budget simply makes every remaining `dfs` call return at the
budget check, never an exception — and afterwards the chain is overwritten with
the retained best chain.  That best chain is nonempty and is either a chain with
at least `TARGET_OUTSIDE` fully-outside circles (the longest qualifying chain the
search encountered, by the `circles.length > bestCircles.length` update guard) or,
when no qualifying chain was ever met, the initial one-circle seed chain. -/
theorem spec_c4 (u : ℕ → ℝ) (hu : validU u) :
    genB u = (dfsPost u).best ∧ genB u ≠ [] ∧
    (genB u = [seedB u] ∨ TARGET_OUTSIDE ≤ countOutside (genB u)) := by
  have h := genB_goodPst u hu
  refine ⟨rfl, h.1, ?_⟩
  rcases h.2.2.2.2 with hc | hc
  · exact Or.inl hc
  · exact Or.inr (h.2.2.2.1 ▸ hc)

/-- Witness for C4 at the all-zeros stream. -/
theorem spec_c4_witness :
    validU u0 ∧
    (genB u0 = (dfsPost u0).best ∧ genB u0 ≠ [] ∧
      (genB u0 = [seedB u0] ∨ TARGET_OUTSIDE ≤ countOutside (genB u0))) :=
  ⟨fun _ => by norm_num [u0], spec_c4 u0 (fun _ => by norm_num [u0])⟩

/-! ## Void filler: shape and acceptance conditions -/

theorem fillVoids_shape (u : ℕ → ℝ) :
    ∀ (n k : ℕ) (circles : List Circle),
      ∃ fs, fillVoids u k n circles = circles ++ fs ∧ FillerOk circles fs := by
  intro n
  induction n with
  | zero =>
    intro k circles
    exact ⟨[], by simp [fillVoids], trivial⟩
  | succ n ih =>
    intro k circles
    simp only [fillVoids]
    split_ifs with h1 h2
    · exact ih (k + 3) circles
    · obtain ⟨fs, hfs, hfsok⟩ := ih (k + 3) _
      refine ⟨_ :: fs, ?_, h1, h2, hfsok⟩
      rw [hfs]
      simp
    · exact ih (k + 3) circles

/-- C3: `fillVoids` runs its whole budget of 2000 attempts and returns (it is a
plain function of the draws, no exception is possible); the result is the input
list with a batch of fillers appended, each of which, at the moment it was
accepted, overlapped none of the circles present (the chain plus the previously
accepted fillers) and sat fully inside the viewport box. -/
theorem spec_c3 (u : ℕ → ℝ) (k : ℕ) (circles : List Circle) :
    ∃ fs, fillVoids u k 2000 circles = circles ++ fs ∧ FillerOk circles fs :=
  fillVoids_shape u 2000 k circles

/-! ## The seed stays at index 0 with a valid edge -/

theorem seed_edge_int (u : ℕ → ℝ) (hu : validU u) :
    0 ≤ Int.floor (4 * u 0) ∧ Int.floor (4 * u 0) < 4 := by
  obtain ⟨h0, h1⟩ := hu 0
  constructor
  · exact Int.floor_nonneg.2 (by linarith)
  · exact Int.floor_lt.2 (by push_cast; linarith)

theorem edgeAngleOf_isSome (c : Circle) (e : ℤ) (hc : c.edge = some e)
    (h0 : 0 ≤ e) (h4 : e < 4) : (edgeAngleOf c).isSome = true := by
  unfold edgeAngleOf
  rw [hc]
  have hlt : e.toNat < edgeAngles.length := by
    simp only [edgeAngles, List.length_cons, List.length_nil]
    omega
  show (if 0 ≤ e then edgeAngles.get? e.toNat else none).isSome = true
  rw [if_pos h0, List.get?_eq_get hlt]
  rfl

theorem seedA_edge (u : ℕ → ℝ) : (seedA u).edge = some (Int.floor (4 * u 0)) := rfl

theorem seedB_edge (u : ℕ → ℝ) : (seedB u).edge = some (Int.floor (4 * u 0)) := rfl

theorem seedOKAt_of_head (circles : List Circle) (c : Circle) (e : ℤ)
    (hh : circles.head? = some c) (hc : c.edge = some e) (h0 : 0 ≤ e) (h4 : e < 4) :
    seedOKAt circles :=
  ⟨c, e, hh, hc, h0, h4, edgeAngleOf_isSome c e hc h0 h4⟩

theorem seedOKAt_fit (circles : List Circle) (h : seedOKAt circles) :
    seedOKAt (fitRibbonToViewport circles) := by
  obtain ⟨c, e, hh, he, h0, h4, _⟩ := h
  have hmap : (fitRibbonToViewport circles).head? = some
      ⟨(c.x - (bboxMinX circles + bboxMaxX circles) * 0.5) * fitScale circles + CANVAS_W * 0.5,
       (c.y - (bboxMinY circles + bboxMaxY circles) * 0.5) * fitScale circles + CANVAS_H * 0.5,
       c.radius * fitScale circles, c.edge⟩ := by
    simp only [fitRibbonToViewport]
    rw [List.head?_map, hh]
    rfl
  exact seedOKAt_of_head _ _ e hmap he h0 h4

theorem seedOKAt_append (circles fs : List Circle) (hne : circles ≠ [])
    (h : seedOKAt circles) : seedOKAt (circles ++ fs) := by
  obtain ⟨c, e, hh, he, h0, h4, _⟩ := h
  exact seedOKAt_of_head _ c e ((List.head?_append_of_ne_nil circles hne).trans hh)
    he h0 h4

/-- C10: in every variant the circle at index 0 is the seed with `edge` an integer
in `0..3` — through Variant A's growth loop, Variant B's search and best-chain
restore, viewport fitting and void filling — so `buildArcList`'s edge-angle
lookup at `circles[0].edge` is always defined. -/
theorem spec_c10 (u : ℕ → ℝ) (hu : validU u) :
    (genA u).head? = some (seedA u) ∧ seedOKAt (genA u) ∧
    (genB u).head? = some (seedB u) ∧ seedOKAt (genB u) ∧
    seedOKAt (fitRibbonToViewport (genB u)) ∧
    seedOKAt (setupCirclesB u) := by
  obtain ⟨he0, he4⟩ := seed_edge_int u hu
  have hA := (genA_good u hu).2.2
  have hB := (genB_goodPst u hu).2.1
  have hBOK : seedOKAt (genB u) := seedOKAt_of_head _ _ _ hB (seedB_edge u) he0 he4
  have hfit : seedOKAt (fitRibbonToViewport (genB u)) := seedOKAt_fit _ hBOK
  refine ⟨hA, seedOKAt_of_head _ _ _ hA (seedA_edge u) he0 he4, hB, hBOK, hfit, ?_⟩
  obtain ⟨fs, hfs, _⟩ := fillVoids_shape u 2000 (dfsPost u).k (fitRibbonToViewport (genB u))
  unfold setupCirclesB
  rw [hfs]
  refine seedOKAt_append _ fs ?_ hfit
  simp only [fitRibbonToViewport, ne_eq, List.map_eq_nil_iff]
  exact (genB_goodPst u hu).1

/-- Witness for C10 at the all-zeros stream. -/
theorem spec_c10_witness :
    validU u0 ∧
    ((genA u0).head? = some (seedA u0) ∧ seedOKAt (genA u0) ∧
     (genB u0).head? = some (seedB u0) ∧ seedOKAt (genB u0) ∧
     seedOKAt (fitRibbonToViewport (genB u0)) ∧
     seedOKAt (setupCirclesB u0)) :=
  ⟨fun _ => by norm_num [u0], spec_c10 u0 (fun _ => by norm_num [u0])⟩

/-! ## Arc extractor: segment count and centers -/

theorem buildArcList_length (circles : List Circle) :
    (buildArcList circles).length =
      if circles.length < 2 then 0 else circles.length - 1 := by
  unfold buildArcList
  split_ifs with h
  · simp
  · simp only [List.length_cons, List.length_map, List.length_range]
    omega

theorem buildArcList_center (circles : List Circle) (j : ℕ) (hj : j + 1 < circles.length) :
    ∃ a, (buildArcList circles).get? j = some a ∧
      a.cx = (circles.getD j cDefault).x ∧ a.cy = (circles.getD j cDefault).y ∧
      a.r = (circles.getD j cDefault).radius := by
  unfold buildArcList
  rw [if_neg (by omega)]
  cases j with
  | zero => exact ⟨_, rfl, rfl, rfl, rfl⟩
  | succ j =>
    have hj2 : j < circles.length - 2 := by omega
    refine ⟨arcAt circles (j + 1), ?_, rfl, rfl, rfl⟩
    rw [List.get?_cons_succ, List.get?_map, List.get?_range hj2]
    rfl

/-- C6: `buildArcList` yields exactly `N - 1` segments for a chain of length
`N ≥ 2` — one centered at each circle of index `0 .. N-2`, the last circle
contributing none — and the empty list for a chain of length `< 2`; the renderer
iterates over the arc list, so an empty arc list produces no stroke operations
at all rather than a failure. -/
theorem spec_c6 (circles : List Circle) :
    (2 ≤ circles.length → (buildArcList circles).length = circles.length - 1) ∧
    (circles.length < 2 → buildArcList circles = []) ∧
    (∀ j, j + 1 < circles.length →
      ∃ a, (buildArcList circles).get? j = some a ∧
        a.cx = (circles.getD j cDefault).x ∧ a.cy = (circles.getD j cDefault).y) ∧
    drawOps [] = [] := by
  refine ⟨?_, ?_, ?_, by simp [drawOps]⟩
  · intro h
    rw [buildArcList_length, if_neg (by omega)]
  · intro h
    unfold buildArcList
    rw [if_pos h]
  · intro j hj
    obtain ⟨a, h1, h2, h3, _⟩ := buildArcList_center circles j hj
    exact ⟨a, h1, h2, h3⟩

/-- Witness for C6 on concrete chains of length two and one. -/
theorem spec_c6_witness :
    (2 ≤ ([cW0, cW1] : List Circle).length ∧
      (buildArcList [cW0, cW1]).length = ([cW0, cW1] : List Circle).length - 1) ∧
    (([cW0] : List Circle).length < 2 ∧ buildArcList [cW0] = []) :=
  ⟨⟨by norm_num, (spec_c6 [cW0, cW1]).1 (by norm_num)⟩,
   ⟨by norm_num, (spec_c6 [cW0]).2.1 (by norm_num)⟩⟩

/-! ## The filler circles do take part in arc extraction -/

/-- C2 (amended): in `setup()` the void filler appends its circles to the same
`circles` array before `buildArcList` runs, and `buildArcList` consumes the whole
array; appending `k ≥ 1` fillers therefore changes the arc list (it gains `k`
segments). -/
theorem spec_c2 (circles fs : List Circle) (h2 : 2 ≤ circles.length) :
    (buildArcList (circles ++ fs)).length = circles.length + fs.length - 1 ∧
    (fs ≠ [] → buildArcList (circles ++ fs) ≠ buildArcList circles) := by
  have hl1 := buildArcList_length (circles ++ fs)
  have hl2 := buildArcList_length circles
  rw [List.length_append, if_neg (by omega)] at hl1
  rw [if_neg (by omega)] at hl2
  refine ⟨hl1, ?_⟩
  intro hfs hEq
  have hlen := congrArg List.length hEq
  rw [hl1, hl2] at hlen
  have hfs' : fs.length ≠ 0 := fun h => hfs (List.length_eq_zero.1 h)
  omega

/-- Witness for C2's amended statement on a concrete chain and filler. -/
theorem spec_c2_witness :
    2 ≤ ([cW0, cW1] : List Circle).length ∧
    (buildArcList ([cW0, cW1] ++ [fW])).length =
      ([cW0, cW1] : List Circle).length + ([fW] : List Circle).length - 1 ∧
    buildArcList ([cW0, cW1] ++ [fW]) ≠ buildArcList [cW0, cW1] := by
  refine ⟨by norm_num, ?_, ?_⟩
  · exact (spec_c2 [cW0, cW1] [fW] (by norm_num)).1
  · exact (spec_c2 [cW0, cW1] [fW] (by norm_num)).2 (by simp)

/-- C2 counterexample: a concrete tangent two-circle chain and a filler that
`fillVoids` would accept (it overlaps nothing, with the 0.1 tolerance, and sits
fully inside the viewport), for which the arc list with the filler appended
differs from the arc list computed from the chain alone: the claim that the arc
list is identical whether or not fillers were appended fails on the code, because
`setup()` calls `fillVoids()` before `buildArcList()` and the extractor reads the
whole circle list. -/
theorem spec_c2_counterexample :
    tangentAdj cW0 cW1 ∧ ¬ overlapsAnyB [cW0, cW1] fW ∧ fullyInsideViewport fW ∧
    buildArcList ([cW0, cW1] ++ [fW]) ≠ buildArcList [cW0, cW1] := by
  refine ⟨?_, ?_, ?_, ?_⟩
  · show Real.sqrt ((cW0.x - cW1.x) ^ 2 + (cW0.y - cW1.y) ^ 2) = cW0.radius + cW1.radius
    rw [show (cW0.x - cW1.x) ^ 2 + (cW0.y - cW1.y) ^ 2 = 100 ^ 2 by norm_num [cW0, cW1],
      Real.sqrt_sq (by norm_num)]
    norm_num [cW0, cW1]
  · rintro ⟨c, hc, hlt⟩
    simp only [List.mem_cons, List.not_mem_nil, or_false] at hc
    rcases hc with rfl | rfl
    · have h69 : (69.9 : ℝ) ≤ p5dist cW0 fW := by
        unfold p5dist
        exact Real.le_sqrt_of_sq_le (by norm_num [cW0, fW])
      rw [show cW0.radius + fW.radius - (0.1 : ℝ) = 69.9 from by norm_num [cW0, fW]] at hlt
      linarith
    · have h69 : (69.9 : ℝ) ≤ p5dist cW1 fW := by
        unfold p5dist
        exact Real.le_sqrt_of_sq_le (by norm_num [cW1, fW])
      rw [show cW1.radius + fW.radius - (0.1 : ℝ) = 69.9 from by norm_num [cW1, fW]] at hlt
      linarith
  · refine ⟨?_, ?_, ?_, ?_⟩ <;> norm_num [fW, VIEWPORT]
  · intro hEq
    have hlen := congrArg List.length hEq
    rw [buildArcList_length, buildArcList_length] at hlen
    simp at hlen

/-! ## Viewport fitter: bounding box and scale facts -/

theorem foldl_min_le (l : List ℝ) : ∀ a : ℝ, l.foldl min a ≤ a ∧ ∀ x ∈ l, l.foldl min a ≤ x := by
  induction l with
  | nil =>
    intro a
    exact ⟨le_refl a, by simp⟩
  | cons y l ih =>
    intro a
    simp only [List.foldl_cons]
    refine ⟨(ih (min a y)).1.trans (min_le_left a y), ?_⟩
    intro x hx
    rcases List.mem_cons.1 hx with rfl | hx
    · exact (ih (min a x)).1.trans (min_le_right a x)
    · exact (ih (min a y)).2 x hx

theorem le_foldl_max (l : List ℝ) : ∀ a : ℝ, a ≤ l.foldl max a ∧ ∀ x ∈ l, x ≤ l.foldl max a := by
  induction l with
  | nil =>
    intro a
    exact ⟨le_refl a, by simp⟩
  | cons y l ih =>
    intro a
    simp only [List.foldl_cons]
    refine ⟨(le_max_left a y).trans (ih (max a y)).1, ?_⟩
    intro x hx
    rcases List.mem_cons.1 hx with rfl | hx
    · exact (le_max_right a x).trans (ih (max a x)).1
    · exact (ih (max a y)).2 x hx

theorem listMin_le_of_mem (l : List ℝ) (x : ℝ) (hx : x ∈ l) : listMin l ≤ x := by
  cases l with
  | nil => simp at hx
  | cons v rest =>
    rcases List.mem_cons.1 hx with rfl | hx
    · exact (foldl_min_le rest x).1
    · exact (foldl_min_le rest v).2 x hx

theorem le_listMax_of_mem (l : List ℝ) (x : ℝ) (hx : x ∈ l) : x ≤ listMax l := by
  cases l with
  | nil => simp at hx
  | cons v rest =>
    rcases List.mem_cons.1 hx with rfl | hx
    · exact (le_foldl_max rest x).1
    · exact (le_foldl_max rest v).2 x hx

theorem foldl_min_map (f : ℝ → ℝ) (hf : ∀ a b, f (min a b) = min (f a) (f b)) :
    ∀ (l : List ℝ) (a : ℝ), (l.map f).foldl min (f a) = f (l.foldl min a) := by
  intro l
  induction l with
  | nil =>
    intro a
    rfl
  | cons y l ih =>
    intro a
    simp only [List.map_cons, List.foldl_cons]
    rw [← hf a y]
    exact ih (min a y)

theorem foldl_max_map (f : ℝ → ℝ) (hf : ∀ a b, f (max a b) = max (f a) (f b)) :
    ∀ (l : List ℝ) (a : ℝ), (l.map f).foldl max (f a) = f (l.foldl max a) := by
  intro l
  induction l with
  | nil =>
    intro a
    rfl
  | cons y l ih =>
    intro a
    simp only [List.map_cons, List.foldl_cons]
    rw [← hf a y]
    exact ih (max a y)

theorem listMin_map_ne (f : ℝ → ℝ) (hf : ∀ a b, f (min a b) = min (f a) (f b))
    (l : List ℝ) (hl : l ≠ []) : listMin (l.map f) = f (listMin l) := by
  cases l with
  | nil => cases hl rfl
  | cons x l =>
    simp only [listMin, List.map_cons]
    exact foldl_min_map f hf l x

theorem listMax_map_ne (f : ℝ → ℝ) (hf : ∀ a b, f (max a b) = max (f a) (f b))
    (l : List ℝ) (hl : l ≠ []) : listMax (l.map f) = f (listMax l) := by
  cases l with
  | nil => cases hl rfl
  | cons x l =>
    simp only [listMax, List.map_cons]
    exact foldl_max_map f hf l x

theorem affine_min (s t : ℝ) (hs : 0 ≤ s) (a b : ℝ) :
    min a b * s + t = min (a * s + t) (b * s + t) :=
  ((monotone_mul_right_of_nonneg hs).add_const t).map_min

theorem affine_max (s t : ℝ) (hs : 0 ≤ s) (a b : ℝ) :
    max a b * s + t = max (a * s + t) (b * s + t) :=
  ((monotone_mul_right_of_nonneg hs).add_const t).map_max

/-- C7: after `fitRibbonToViewport`, the scale that was applied is exactly
`min(1, limit/bw, limit/bh)` with `limit = VIEWPORT - 2*VIEW_PAD = 1040` and is
never above 1 (no upscaling); the radius-extended bounding box of the result has
width and height scaled by exactly that factor and hence at most 1040; and the
bounding-box center lands exactly on the canvas center. -/
theorem spec_c7 (circles : List Circle) (hne : circles ≠ [])
    (hr : ∀ c ∈ circles, 0 < c.radius) :
    fitScale circles ≤ 1 ∧
    fitScale circles =
      min 1 (min (fitLimit / (bboxMaxX circles - bboxMinX circles))
                 (fitLimit / (bboxMaxY circles - bboxMinY circles))) ∧
    fitLimit = 1040 ∧
    bboxMaxX (fitRibbonToViewport circles) - bboxMinX (fitRibbonToViewport circles) =
      fitScale circles * (bboxMaxX circles - bboxMinX circles) ∧
    bboxMaxY (fitRibbonToViewport circles) - bboxMinY (fitRibbonToViewport circles) =
      fitScale circles * (bboxMaxY circles - bboxMinY circles) ∧
    bboxMaxX (fitRibbonToViewport circles) - bboxMinX (fitRibbonToViewport circles) ≤ fitLimit ∧
    bboxMaxY (fitRibbonToViewport circles) - bboxMinY (fitRibbonToViewport circles) ≤ fitLimit ∧
    (bboxMinX (fitRibbonToViewport circles) + bboxMaxX (fitRibbonToViewport circles)) * 0.5 =
      CANVAS_W * 0.5 ∧
    (bboxMinY (fitRibbonToViewport circles) + bboxMaxY (fitRibbonToViewport circles)) * 0.5 =
      CANVAS_H * 0.5 := by
  have hlim : (0 : ℝ) < fitLimit := by norm_num [fitLimit, VIEWPORT, VIEW_PAD]
  obtain ⟨c, hc⟩ := List.exists_mem_of_ne_nil circles hne
  have hbw : 0 < bboxMaxX circles - bboxMinX circles := by
    have h1 := listMin_le_of_mem _ _ (List.mem_map_of_mem (fun c => c.x - c.radius) hc)
    have h2 := le_listMax_of_mem _ _ (List.mem_map_of_mem (fun c => c.x + c.radius) hc)
    have h3 := hr c hc
    dsimp only at h1 h2
    unfold bboxMinX bboxMaxX
    linarith
  have hbh : 0 < bboxMaxY circles - bboxMinY circles := by
    have h1 := listMin_le_of_mem _ _ (List.mem_map_of_mem (fun c => c.y - c.radius) hc)
    have h2 := le_listMax_of_mem _ _ (List.mem_map_of_mem (fun c => c.y + c.radius) hc)
    have h3 := hr c hc
    dsimp only at h1 h2
    unfold bboxMinY bboxMaxY
    linarith
  have hspos : 0 < fitScale circles := by
    unfold fitScale
    exact lt_min (by norm_num) (lt_min (div_pos hlim hbw) (div_pos hlim hbh))
  have hs : 0 ≤ fitScale circles := le_of_lt hspos
  have hminx : bboxMinX (fitRibbonToViewport circles) =
      bboxMinX circles * fitScale circles +
        (CANVAS_W * 0.5 - (bboxMinX circles + bboxMaxX circles) * 0.5 * fitScale circles) := by
    unfold bboxMinX
    have hmap : (fitRibbonToViewport circles).map (fun c => c.x - c.radius) =
        (circles.map fun c => c.x - c.radius).map (fun v => v * fitScale circles +
          (CANVAS_W * 0.5 - (bboxMinX circles + bboxMaxX circles) * 0.5 * fitScale circles)) := by
      simp only [fitRibbonToViewport, List.map_map]
      refine List.map_congr_left ?_
      intro d _
      simp only [Function.comp_apply]
      ring
    rw [hmap, listMin_map_ne _ (affine_min (fitScale circles) _ hs) _ (by simp [hne])]
    rfl
  have hmaxx : bboxMaxX (fitRibbonToViewport circles) =
      bboxMaxX circles * fitScale circles +
        (CANVAS_W * 0.5 - (bboxMinX circles + bboxMaxX circles) * 0.5 * fitScale circles) := by
    unfold bboxMaxX
    have hmap : (fitRibbonToViewport circles).map (fun c => c.x + c.radius) =
        (circles.map fun c => c.x + c.radius).map (fun v => v * fitScale circles +
          (CANVAS_W * 0.5 - (bboxMinX circles + bboxMaxX circles) * 0.5 * fitScale circles)) := by
      simp only [fitRibbonToViewport, List.map_map]
      refine List.map_congr_left ?_
      intro d _
      simp only [Function.comp_apply]
      ring
    rw [hmap, listMax_map_ne _ (affine_max (fitScale circles) _ hs) _ (by simp [hne])]
    rfl
  have hminy : bboxMinY (fitRibbonToViewport circles) =
      bboxMinY circles * fitScale circles +
        (CANVAS_H * 0.5 - (bboxMinY circles + bboxMaxY circles) * 0.5 * fitScale circles) := by
    unfold bboxMinY
    have hmap : (fitRibbonToViewport circles).map (fun c => c.y - c.radius) =
        (circles.map fun c => c.y - c.radius).map (fun v => v * fitScale circles +
          (CANVAS_H * 0.5 - (bboxMinY circles + bboxMaxY circles) * 0.5 * fitScale circles)) := by
      simp only [fitRibbonToViewport, List.map_map]
      refine List.map_congr_left ?_
      intro d _
      simp only [Function.comp_apply]
      ring
    rw [hmap, listMin_map_ne _ (affine_min (fitScale circles) _ hs) _ (by simp [hne])]
    rfl
  have hmaxy : bboxMaxY (fitRibbonToViewport circles) =
      bboxMaxY circles * fitScale circles +
        (CANVAS_H * 0.5 - (bboxMinY circles + bboxMaxY circles) * 0.5 * fitScale circles) := by
    unfold bboxMaxY
    have hmap : (fitRibbonToViewport circles).map (fun c => c.y + c.radius) =
        (circles.map fun c => c.y + c.radius).map (fun v => v * fitScale circles +
          (CANVAS_H * 0.5 - (bboxMinY circles + bboxMaxY circles) * 0.5 * fitScale circles)) := by
      simp only [fitRibbonToViewport, List.map_map]
      refine List.map_congr_left ?_
      intro d _
      simp only [Function.comp_apply]
      ring
    rw [hmap, listMax_map_ne _ (affine_max (fitScale circles) _ hs) _ (by simp [hne])]
    rfl
  have hWX : bboxMaxX (fitRibbonToViewport circles) - bboxMinX (fitRibbonToViewport circles) =
      fitScale circles * (bboxMaxX circles - bboxMinX circles) := by
    rw [hminx, hmaxx]
    ring
  have hWY : bboxMaxY (fitRibbonToViewport circles) - bboxMinY (fitRibbonToViewport circles) =
      fitScale circles * (bboxMaxY circles - bboxMinY circles) := by
    rw [hminy, hmaxy]
    ring
  have hsx : fitScale circles ≤ fitLimit / (bboxMaxX circles - bboxMinX circles) :=
    (min_le_right _ _).trans (min_le_left _ _)
  have hsy : fitScale circles ≤ fitLimit / (bboxMaxY circles - bboxMinY circles) :=
    (min_le_right _ _).trans (min_le_right _ _)
  refine ⟨min_le_left _ _, rfl, by norm_num [fitLimit, VIEWPORT, VIEW_PAD], hWX, hWY,
    ?_, ?_, ?_, ?_⟩
  · rw [hWX]
    exact (le_div_iff₀ hbw).1 hsx
  · rw [hWY]
    exact (le_div_iff₀ hbh).1 hsy
  · rw [hminx, hmaxx]
    ring
  · rw [hminy, hmaxy]
    ring

/-- Witness for C7 on a concrete one-circle list. -/
theorem spec_c7_witness :
    (([cV] : List Circle) ≠ [] ∧ ∀ c ∈ ([cV] : List Circle), 0 < c.radius) ∧
    (fitScale [cV] ≤ 1 ∧
     fitScale [cV] =
       min 1 (min (fitLimit / (bboxMaxX [cV] - bboxMinX [cV]))
                  (fitLimit / (bboxMaxY [cV] - bboxMinY [cV]))) ∧
     fitLimit = 1040 ∧
     bboxMaxX (fitRibbonToViewport [cV]) - bboxMinX (fitRibbonToViewport [cV]) =
       fitScale [cV] * (bboxMaxX [cV] - bboxMinX [cV]) ∧
     bboxMaxY (fitRibbonToViewport [cV]) - bboxMinY (fitRibbonToViewport [cV]) =
       fitScale [cV] * (bboxMaxY [cV] - bboxMinY [cV]) ∧
     bboxMaxX (fitRibbonToViewport [cV]) - bboxMinX (fitRibbonToViewport [cV]) ≤ fitLimit ∧
     bboxMaxY (fitRibbonToViewport [cV]) - bboxMinY (fitRibbonToViewport [cV]) ≤ fitLimit ∧
     (bboxMinX (fitRibbonToViewport [cV]) + bboxMaxX (fitRibbonToViewport [cV])) * 0.5 =
       CANVAS_W * 0.5 ∧
     (bboxMinY (fitRibbonToViewport [cV]) + bboxMaxY (fitRibbonToViewport [cV])) * 0.5 =
       CANVAS_H * 0.5) :=
  ⟨⟨by simp, fun c hc => by
      simp only [List.mem_singleton] at hc
      rw [hc]
      norm_num [cV]⟩,
   spec_c7 [cV] (by simp) (fun c hc => by
      simp only [List.mem_singleton] at hc
      rw [hc]
      norm_num [cV])⟩

/-! ## Multi-pulse scheduling -/

/-- C8: a layer receives the turquoise highlight exactly when `leader - layer` is
a non-negative multiple of `GAP` whose multiplier is below the number of pulses
unlocked so far, `floor(leader / GAP) + 1`. -/
theorem spec_c8 (frameCount layer : ℕ) :
    turquoiseAt frameCount layer ↔
      ∃ m : ℕ, (leaderAt frameCount : ℤ) - layer = (GAP : ℤ) * m ∧
        m < pulsesAt frameCount := by
  have hgapQ : (0 : ℚ) < (GAP : ℚ) := by norm_num [GAP]
  have hG : (GAP : ℤ) = 6 := rfl
  unfold turquoiseAt
  constructor
  · rintro ⟨h0, hmod, hdiv⟩
    rw [div_lt_iff hgapQ] at hdiv
    have hdiv' : (leaderAt frameCount : ℤ) - layer < (pulsesAt frameCount : ℤ) * GAP := by
      exact_mod_cast hdiv
    rw [hG] at hmod hdiv' ⊢
    refine ⟨((leaderAt frameCount : ℤ) - layer).toNat / 6, ?_, ?_⟩
    · omega
    · omega
  · rintro ⟨m, hm, hmp⟩
    rw [hG] at hm
    rw [hG]
    refine ⟨by omega, by omega, ?_⟩
    rw [div_lt_iff hgapQ]
    have : (leaderAt frameCount : ℤ) - layer < (pulsesAt frameCount : ℤ) * GAP := by
      rw [hG]
      omega
    exact_mod_cast this

/-! ## Frame capture: the draw loop's gate never fires -/

theorem drawTicks_frozen (n : ℕ) :
    ∀ st : CapState, st.windowRecPending = false → drawTicks n st = st := by
  induction n with
  | zero =>
    intro st _
    rfl
  | succ n ih =>
    intro st h
    show drawTicks n (drawTick st) = st
    have hid : drawTick st = st := by
      unfold drawTick
      rw [h]
      simp
    rw [hid]
    exact ih st h

theorem intendedTicks_stop (n : ℕ) :
    ∀ st : CapState, st.recPending = false → intendedTicks n st = st := by
  induction n with
  | zero =>
    intro st _
    rfl
  | succ n ih =>
    intro st h
    show intendedTicks n (intendedTick st) = st
    have hid : intendedTick st = st := by
      unfold intendedTick
      rw [h]
      simp
    rw [hid]
    exact ih st h

theorem intendedTicks_add (m n : ℕ) : ∀ st : CapState,
    intendedTicks (m + n) st = intendedTicks n (intendedTicks m st) := by
  induction m with
  | zero =>
    intro st
    rw [Nat.zero_add]
    rfl
  | succ m ih =>
    intro st
    rw [Nat.succ_add]
    show intendedTicks (m + n) (intendedTick st) =
      intendedTicks n (intendedTicks m (intendedTick st))
    exact ih (intendedTick st)

theorem intendedTicks_run (j : ℕ) (hj : j < REC_FRAMES) :
    intendedTicks j (startCapture capInit) = ⟨false, true, j, j, 0⟩ := by
  have hRF : REC_FRAMES = 600 := rfl
  induction j with
  | zero => rfl
  | succ j ih =>
    have hj' : j < REC_FRAMES := by omega
    rw [show j + 1 = j + 1 from rfl, intendedTicks_add j 1 (startCapture capInit), ih hj']
    show intendedTick ⟨false, true, j, j, 0⟩ = ⟨false, true, j + 1, j + 1, 0⟩
    unfold intendedTick saveGifFrame
    simp only [if_true, Bool.true_eq_false, if_false, reduceIte]
    rw [if_neg (by omega)]

theorem intendedTicks_600 :
    intendedTicks REC_FRAMES (startCapture capInit) =
      ⟨false, false, REC_FRAMES, REC_FRAMES, 1⟩ := by
  have h599 : intendedTicks 599 (startCapture capInit) = ⟨false, true, 599, 599, 0⟩ :=
    intendedTicks_run 599 (by norm_num [REC_FRAMES, REC_SECONDS, REC_FPS])
  have hsplit : REC_FRAMES = 599 + 1 := by norm_num [REC_FRAMES, REC_SECONDS, REC_FPS]
  rw [hsplit, intendedTicks_add 599 1 (startCapture capInit), h599]
  show intendedTick ⟨false, true, 599, 599, 0⟩ = ⟨false, false, 599 + 1, 599 + 1, 1⟩
  unfold intendedTick saveGifFrame finishCapture
  simp only [if_true, Bool.true_eq_false, if_false, reduceIte]
  rw [if_pos (by norm_num [REC_FRAMES, REC_SECONDS, REC_FPS])]

/-- C9 (behaviour of the code at the failing input): after `startCapture()` is
triggered, the sketches' draw loop gates the handoff on `window.recPending`,
which `startCapture` never sets (it writes the shadowing `let recPending`), so
`saveGifFrame` is never reached: after any number of draw frames zero frames are
filed and no archive is produced, while the recorder believes it is recording.
Under the gate capture.js itself documents ("call every draw() while
`recPending` is true") the very same machine files exactly `REC_FRAMES = 600`
frames, produces one archive, stops recording, and all later handoffs are
no-ops — which is what the claim describes. -/
theorem spec_c9 :
    (∀ n, (drawTicks n (startCapture capInit)).grabCount = 0 ∧
          (drawTicks n (startCapture capInit)).zipFrames = 0 ∧
          (drawTicks n (startCapture capInit)).archives = 0 ∧
          (drawTicks n (startCapture capInit)).recPending = true) ∧
    ((intendedTicks REC_FRAMES (startCapture capInit)).grabCount = REC_FRAMES ∧
     (intendedTicks REC_FRAMES (startCapture capInit)).zipFrames = REC_FRAMES ∧
     (intendedTicks REC_FRAMES (startCapture capInit)).archives = 1 ∧
     (intendedTicks REC_FRAMES (startCapture capInit)).recPending = false) ∧
    (∀ m, intendedTicks m (intendedTicks REC_FRAMES (startCapture capInit)) =
          intendedTicks REC_FRAMES (startCapture capInit)) := by
  refine ⟨?_, ?_, ?_⟩
  · intro n
    rw [drawTicks_frozen n _ rfl]
    exact ⟨rfl, rfl, rfl, rfl⟩
  · rw [intendedTicks_600]
    exact ⟨rfl, rfl, rfl, rfl⟩
  · intro m
    refine intendedTicks_stop m _ ?_
    rw [intendedTicks_600]

end Ribbon

end
